import Mathlib

/-!
Verification of the athena-desktop-client editorial explorer.

The source is a browser script (src/unnamed/part_000, plus the dashboard
variant src/script.js).  The definitions below are a shallow embedding of
its pure core: the grouping loop of fetchData, the render function of the
file explorer, the navigation click handlers, the toggle-read handler,
renderHomeStats, renderEditorialsForDay, and the exam processing of
fetchAndProcessExams.  JavaScript objects used as ordered string-keyed
maps are embedded as association lists in insertion order; machine dates
are embedded as already-parsed calendar triples (year, month name, day)
for document dates and as integer epoch milliseconds for exam dates.
-/

/-- A calendar date as the source derives it from a Document date field:
getFullYear, toLocaleString month long name, getDate. -/
structure DateYMD where
  year : Nat
  month : String
  day : Nat
deriving DecidableEq

/-- One editorial record as returned by GET /notes/editorials and kept in
allEditorials: id, athena_id, date, original_filename, is_read. -/
structure Editorial where
  id : String
  athena_id : String
  date : DateYMD
  original_filename : String
  is_read : Bool
deriving DecidableEq

/-- Association-list lookup, the embedding of reading obj[k] on a plain
JavaScript object used as a map; none plays the role of undefined. -/
def findA {α β : Type} [DecidableEq α] (k : α) : List (α × β) → Option β
  | [] => none
  | (a, b) :: t => if a = k then some b else findA k t

/-- Insert-or-update at key k: if k is present its value is transformed in
place (position kept); otherwise the key is appended at the end with the
transform applied to the default.  This is the embedding of the source
pattern: if obj[k] is missing set obj[k] to the default, then mutate
obj[k]. -/
def upsert {α β : Type} [DecidableEq α] (k : α) (dflt : β) (f : β → β) :
    List (α × β) → List (α × β)
  | [] => [(k, f dflt)]
  | (a, b) :: t => if a = k then (a, f b) :: t else (a, b) :: upsert k dflt f t

/-- Update the value at key k in place when present; no insertion when
absent.  Embeds mutating an object already known to live at obj[k]. -/
def adjustA {α β : Type} [DecidableEq α] (k : α) (f : β → β) :
    List (α × β) → List (α × β)
  | [] => []
  | (a, b) :: t => if a = k then (a, f b) :: t else (a, b) :: adjustA k f t

/-- The key list of an object, in the order Object.keys would deliver the
non-integer keys: insertion order of our association lists. -/
def keysOf {α β : Type} (l : List (α × β)) : List α := l.map Prod.fst

/-- The nested structure held in editorialsByDate:
year to month name to day to ordered bucket of editorials. -/
abbrev GroupedIndex := List (Nat × List (String × List (Nat × List Editorial)))

instance decEqDayMap : DecidableEq (List (Nat × List Editorial)) :=
  inferInstance

instance decEqMonthMap :
    DecidableEq (List (String × List (Nat × List Editorial))) :=
  inferInstance

instance decEqGroupedIndex : DecidableEq GroupedIndex := inferInstance

/-- One iteration of the grouping loop inside fetchData: read the year,
month and day of the date of one editorial and push the editorial at the
end of the bucket editorialsByDate[year][month][day], creating missing
levels as empty objects. -/
def addEditorial (gi : GroupedIndex) (e : Editorial) : GroupedIndex :=
  upsert e.date.year []
    (upsert e.date.month []
      (upsert e.date.day [] (fun bucket => bucket ++ [e]))) gi

/-- The grouping loop of fetchData run over a list of editorials starting
from the current state of editorialsByDate (the source never clears it). -/
def regroupEditorials (gi : GroupedIndex) (editorials : List Editorial) :
    GroupedIndex :=
  editorials.foldl addEditorial gi

/-- The full grouping derivation as performed once at explorer
initialization: the loop run from the empty object. -/
def groupEditorials (editorials : List Editorial) : GroupedIndex :=
  regroupEditorials [] editorials

/-- The bucket editorialsByDate[y][m][d], with missing levels read as
empty (total accessor used to state properties of the structure). -/
def getBucket (gi : GroupedIndex) (y : Nat) (m : String) (d : Nat) :
    List Editorial :=
  ((findA d (((findA m (((findA y gi).getD []))).getD []))).getD [])

/-- Whether an editorial carries exactly the date (y, m, d). -/
def hasDate (y : Nat) (m : String) (d : Nat) (e : Editorial) : Bool :=
  e.date.year == y && e.date.month == m && e.date.day == d

theorem findA_upsert_self {α β : Type} [DecidableEq α] (k : α) (dflt : β)
    (f : β → β) (l : List (α × β)) :
    findA k (upsert k dflt f l) = some (f ((findA k l).getD dflt)) := by
  induction l with
  | nil => simp [findA, upsert]
  | cons hd t ih =>
    obtain ⟨a, b⟩ := hd
    by_cases hak : a = k
    · subst hak
      simp [findA, upsert]
    · simp [findA, upsert, hak, ih]

theorem findA_upsert_ne {α β : Type} [DecidableEq α] {k k' : α}
    (hne : k' ≠ k) (dflt : β) (f : β → β) (l : List (α × β)) :
    findA k' (upsert k dflt f l) = findA k' l := by
  induction l with
  | nil => simp [findA, upsert, Ne.symm hne]
  | cons hd t ih =>
    obtain ⟨a, b⟩ := hd
    by_cases hak : a = k
    · subst hak
      simp [findA, upsert, Ne.symm hne]
    · by_cases hak' : a = k'
      · subst hak'
        simp [findA, upsert, hak]
      · simp [findA, upsert, hak, hak', ih]

theorem keysOf_upsert {α β : Type} [DecidableEq α] (k : α) (dflt : β)
    (f : β → β) (l : List (α × β)) :
    keysOf (upsert k dflt f l) =
      if k ∈ keysOf l then keysOf l else keysOf l ++ [k] := by
  induction l with
  | nil => simp [keysOf, upsert]
  | cons hd t ih =>
    obtain ⟨a, b⟩ := hd
    by_cases hak : a = k
    · subst hak
      simp [keysOf, upsert]
    · have hka : ¬k = a := fun h => hak h.symm
      have h1 : keysOf (upsert k dflt f ((a, b) :: t)) =
          a :: keysOf (upsert k dflt f t) := by
        simp [upsert, hak, keysOf]
      rw [h1, ih]
      by_cases hkt : k ∈ List.map Prod.fst t
      · simp [keysOf, hka, hkt]
      · simp [keysOf, hka, hkt]

theorem findA_adjustA_self {α β : Type} [DecidableEq α] (k : α) (f : β → β)
    (l : List (α × β)) :
    findA k (adjustA k f l) = (findA k l).map f := by
  induction l with
  | nil => simp [findA, adjustA]
  | cons hd t ih =>
    obtain ⟨a, b⟩ := hd
    by_cases hak : a = k
    · subst hak
      simp [findA, adjustA]
    · simp [findA, adjustA, hak, ih]

theorem findA_adjustA_ne {α β : Type} [DecidableEq α] {k k' : α} (f : β → β)
    (l : List (α × β)) (hne : k' ≠ k) :
    findA k' (adjustA k f l) = findA k' l := by
  induction l with
  | nil => simp [findA, adjustA]
  | cons hd t ih =>
    obtain ⟨a, b⟩ := hd
    by_cases hak : a = k
    · subst hak
      simp [findA, adjustA, Ne.symm hne]
    · by_cases hak' : a = k'
      · subst hak'
        simp [findA, adjustA, hak]
      · simp [findA, adjustA, hak, hak', ih]

theorem getBucket_addEditorial (gi : GroupedIndex) (e : Editorial)
    (y : Nat) (m : String) (d : Nat) :
    getBucket (addEditorial gi e) y m d =
      getBucket gi y m d ++ (if hasDate y m d e then [e] else []) := by
  by_cases hy : e.date.year = y
  · by_cases hm : e.date.month = m
    · by_cases hd : e.date.day = d
      · subst hy; subst hm; subst hd
        simp [getBucket, addEditorial, hasDate, findA_upsert_self]
      · subst hy; subst hm
        simp [getBucket, addEditorial, hasDate, hd, findA_upsert_self,
          findA_upsert_ne (Ne.symm hd)]
    · subst hy
      simp [getBucket, addEditorial, hasDate, hm, findA_upsert_self,
        findA_upsert_ne (Ne.symm hm)]
  · simp [getBucket, addEditorial, hasDate, hy,
      findA_upsert_ne (Ne.symm hy)]

theorem getBucket_regroup (editorials : List Editorial) (gi : GroupedIndex)
    (y : Nat) (m : String) (d : Nat) :
    getBucket (regroupEditorials gi editorials) y m d =
      getBucket gi y m d ++ editorials.filter (hasDate y m d) := by
  induction editorials generalizing gi with
  | nil => simp [regroupEditorials]
  | cons e t ih =>
    have step : regroupEditorials gi (e :: t) =
        regroupEditorials (addEditorial gi e) t := by
      simp [regroupEditorials]
    rw [step, ih, getBucket_addEditorial]
    by_cases he : hasDate y m d e
    · simp [he]
    · simp [he]

theorem getBucket_group (editorials : List Editorial)
    (y : Nat) (m : String) (d : Nat) :
    getBucket (groupEditorials editorials) y m d =
      editorials.filter (hasDate y m d) := by
  have h := getBucket_regroup editorials [] y m d
  simpa [groupEditorials, getBucket, findA] using h

/-- The year keys of editorialsByDate in insertion order. -/
def yearKeys (gi : GroupedIndex) : List Nat := keysOf gi

/-- The month keys of editorialsByDate[y] in insertion order
(first-seen order, the order Object.keys reports string keys). -/
def monthKeys (gi : GroupedIndex) (y : Nat) : List String :=
  keysOf ((findA y gi).getD [])

/-- The day keys of editorialsByDate[y][m] in insertion order. -/
def dayKeys (gi : GroupedIndex) (y : Nat) (m : String) : List Nat :=
  keysOf ((findA m ((findA y gi).getD [])).getD [])

/-- Fold that appends each element not yet present, keeping first-seen
order: the order in which fresh keys are added to a JavaScript object. -/
def firstSeenFold {α : Type} [DecidableEq α] (acc : List α) (l : List α) :
    List α :=
  l.foldl (fun a x => if x ∈ a then a else a ++ [x]) acc

theorem yearKeys_addEditorial (gi : GroupedIndex) (e : Editorial) :
    yearKeys (addEditorial gi e) =
      if e.date.year ∈ yearKeys gi then yearKeys gi
      else yearKeys gi ++ [e.date.year] := by
  simp [yearKeys, addEditorial, keysOf_upsert]

theorem monthKeys_addEditorial (gi : GroupedIndex) (e : Editorial) (y : Nat) :
    monthKeys (addEditorial gi e) y =
      if e.date.year = y then
        (if e.date.month ∈ monthKeys gi y then monthKeys gi y
         else monthKeys gi y ++ [e.date.month])
      else monthKeys gi y := by
  by_cases hy : e.date.year = y
  · subst hy
    simp [monthKeys, addEditorial, findA_upsert_self, keysOf_upsert]
  · simp [monthKeys, addEditorial, hy, findA_upsert_ne (Ne.symm hy)]

theorem dayKeys_addEditorial (gi : GroupedIndex) (e : Editorial)
    (y : Nat) (m : String) :
    dayKeys (addEditorial gi e) y m =
      if e.date.year = y ∧ e.date.month = m then
        (if e.date.day ∈ dayKeys gi y m then dayKeys gi y m
         else dayKeys gi y m ++ [e.date.day])
      else dayKeys gi y m := by
  by_cases hy : e.date.year = y
  · by_cases hm : e.date.month = m
    · subst hy; subst hm
      simp [dayKeys, addEditorial, findA_upsert_self, keysOf_upsert]
    · subst hy
      simp [dayKeys, addEditorial, hm, findA_upsert_self,
        findA_upsert_ne (Ne.symm hm)]
  · simp [dayKeys, addEditorial, hy, findA_upsert_ne (Ne.symm hy)]

theorem yearKeys_regroup (editorials : List Editorial) (gi : GroupedIndex) :
    yearKeys (regroupEditorials gi editorials) =
      firstSeenFold (yearKeys gi) (editorials.map (fun e => e.date.year)) := by
  induction editorials generalizing gi with
  | nil => simp [regroupEditorials, firstSeenFold]
  | cons e t ih =>
    have step : regroupEditorials gi (e :: t) =
        regroupEditorials (addEditorial gi e) t := by
      simp [regroupEditorials]
    rw [step, ih, yearKeys_addEditorial]
    by_cases hmem : e.date.year ∈ yearKeys gi
    · simp [firstSeenFold, hmem]
    · simp [firstSeenFold, hmem]

theorem monthKeys_regroup (editorials : List Editorial) (gi : GroupedIndex)
    (y : Nat) :
    monthKeys (regroupEditorials gi editorials) y =
      firstSeenFold (monthKeys gi y)
        ((editorials.filter (fun e => e.date.year == y)).map
          (fun e => e.date.month)) := by
  induction editorials generalizing gi with
  | nil => simp [regroupEditorials, firstSeenFold]
  | cons e t ih =>
    have step : regroupEditorials gi (e :: t) =
        regroupEditorials (addEditorial gi e) t := by
      simp [regroupEditorials]
    rw [step, ih, monthKeys_addEditorial]
    by_cases hy : e.date.year = y
    · by_cases hmem : e.date.month ∈ monthKeys gi y
      · simp [firstSeenFold, hy, hmem]
      · simp [firstSeenFold, hy, hmem]
    · simp [firstSeenFold, hy]

theorem dayKeys_regroup (editorials : List Editorial) (gi : GroupedIndex)
    (y : Nat) (m : String) :
    dayKeys (regroupEditorials gi editorials) y m =
      firstSeenFold (dayKeys gi y m)
        ((editorials.filter
            (fun e => e.date.year == y && e.date.month == m)).map
          (fun e => e.date.day)) := by
  induction editorials generalizing gi with
  | nil => simp [regroupEditorials, firstSeenFold]
  | cons e t ih =>
    have step : regroupEditorials gi (e :: t) =
        regroupEditorials (addEditorial gi e) t := by
      simp [regroupEditorials]
    rw [step, ih, dayKeys_addEditorial]
    by_cases hy : e.date.year = y
    · by_cases hm : e.date.month = m
      · by_cases hmem : e.date.day ∈ dayKeys gi y m
        · simp [firstSeenFold, hy, hm, hmem]
        · simp [firstSeenFold, hy, hm, hmem]
      · simp [firstSeenFold, hy, hm]
    · simp [firstSeenFold, hy]

theorem nodup_firstSeenFold {α : Type} [DecidableEq α] (l : List α)
    (acc : List α) (hacc : acc.Nodup) : (firstSeenFold acc l).Nodup := by
  induction l generalizing acc with
  | nil => simpa [firstSeenFold] using hacc
  | cons x t ih =>
    by_cases hx : x ∈ acc
    · have step : firstSeenFold acc (x :: t) = firstSeenFold acc t := by
        simp [firstSeenFold, hx]
      rw [step]; exact ih acc hacc
    · have step : firstSeenFold acc (x :: t) = firstSeenFold (acc ++ [x]) t := by
        simp [firstSeenFold, hx]
      rw [step]
      exact ih (acc ++ [x]) (by simp [List.nodup_append, hacc, hx])

/-- Descending numeric sort, the embedding of
Object.keys(editorialsByDate).sort((a, b) => b - a) in render. -/
def sortYearsDesc (l : List Nat) : List Nat := List.insertionSort (· ≥ ·) l

/-- Ascending numeric sort, the embedding of
Object.keys(...).sort((a, b) => a - b) on the day keys in render. -/
def sortDaysAsc (l : List Nat) : List Nat := List.insertionSort (· ≤ ·) l

/-- The year item texts produced by render at the years level. -/
def renderYearItems (gi : GroupedIndex) : List Nat :=
  sortYearsDesc (yearKeys gi)

/-- The month item texts produced by render at the months level for the
current year: Object.keys with no sort call, insertion order. -/
def renderMonthItems (gi : GroupedIndex) (y : Nat) : List String :=
  monthKeys gi y

/-- The day item numbers produced by render at the dates level for the
current year and month (the DOM shows them zero padded to two digits). -/
def renderDayItems (gi : GroupedIndex) (y : Nat) (m : String) : List Nat :=
  sortDaysAsc (dayKeys gi y m)

instance : IsTotal Nat (· ≥ ·) := ⟨fun a b => (Nat.le_total b a).imp id id⟩

instance : IsTrans Nat (· ≥ ·) := ⟨fun _ _ _ h1 h2 => le_trans h2 h1⟩

/-- One rendered document row in the content pane, as built by
renderEditorialsForDay: title with underscores spaced and the first .md
occurrence removed, status text, toggle button text, and the two ids
carried on the buttons. -/
structure RenderedEditorial where
  title : List Char
  statusText : String
  toggleText : String
  docId : String
  athenaId : String
deriving DecidableEq

/-- replaceAll of underscore by space over the characters of a filename. -/
def replaceUnderscores (s : List Char) : List Char :=
  s.map (fun c => if c = '_' then ' ' else c)

/-- Whether pat occurs at the head of s. -/
def leadsWith : List Char → List Char → Bool
  | [], _ => true
  | _ :: _, [] => false
  | a :: as, b :: bs => a == b && leadsWith as bs

/-- Remove the first occurrence of pat (JavaScript replace with the empty
string replaces only the first match). -/
def dropFirstMatch (pat : List Char) : List Char → List Char
  | [] => []
  | c :: t =>
    if leadsWith pat (c :: t) then List.drop pat.length (c :: t)
    else c :: dropFirstMatch pat t

/-- The title shown for an editorial:
original_filename.replaceAll resolving underscores to spaces, then
replace of the first .md occurrence by nothing. -/
def editorialTitle (filename : String) : List Char :=
  dropFirstMatch [Char.ofNat 46, Char.ofNat 109, Char.ofNat 100]
    (replaceUnderscores filename.data)

/-- The row renderEditorialsForDay builds for one editorial. -/
def renderEditorialItem (e : Editorial) : RenderedEditorial :=
  { title := editorialTitle e.original_filename
    statusText := if e.is_read then "Read" else "Unread"
    toggleText := if e.is_read then "Mark as Unread" else "Mark as Read"
    docId := e.id
    athenaId := e.athena_id }

/-- The error shapes a handler can hit: a property access on undefined, a
rejected fetch, a failed JSON or body parse. -/
inductive JsError
  | typeError
  | fetchFailed
  | parseFailed
deriving DecidableEq

/-- renderEditorialsForDay: reads
editorialsByDate[currentState.year][currentState.month][day]; a missing
year or month level makes the next property access throw; a missing day
bucket returns after clearing the pane (no rows); otherwise one row per
editorial of the bucket, in bucket order. -/
def renderEditorialsForDay (gi : GroupedIndex) (y : Nat) (m : String)
    (d : Nat) : Except JsError (List RenderedEditorial) :=
  match findA y gi with
  | none => .error .typeError
  | some ym =>
    match findA m ym with
    | none => .error .typeError
    | some mm =>
      match findA d mm with
      | none => .ok []
      | some bucket => .ok (bucket.map renderEditorialItem)

/-- The three drill-down levels of the explorer. -/
inductive NavLevel
  | years
  | months
  | dates
deriving DecidableEq

/-- The mutable navigation record of the source:
currentState = (level, year, month), year and month possibly null. -/
structure NavState where
  level : NavLevel
  year : Option Nat
  month : Option String
deriving DecidableEq

/-- currentState at explorer initialization. -/
def initialNavState : NavState :=
  { level := NavLevel.years, year := none, month := none }

/-- The dataset attributes a clicked explorer item can carry.  render
writes exactly one of year, month or day on each item, and never writes
action. -/
structure ItemDataset where
  action : Option String := none
  year : Option Nat := none
  month : Option String := none
  day : Option Nat := none
deriving DecidableEq

/-- The list click handler of initializeFileExplorer, dispatching on the
dataset of the clicked item in source order: action back first, then
year, then month; a day click only changes the transient selection and
the content pane, never the navigation record. -/
def handleListClick (s : NavState) (ds : ItemDataset) : NavState :=
  if ds.action = some "back" then
    if s.level = NavLevel.dates then
      { s with level := NavLevel.months, month := none }
    else if s.level = NavLevel.months then
      { s with level := NavLevel.years, year := none }
    else s
  else
    match ds.year with
    | some y => { s with level := NavLevel.months, year := some y }
    | none =>
      match ds.month with
      | some m => { s with level := NavLevel.dates, month := some m }
      | none => s

/-- The breadcrumb click handler: the home crumb resets the whole record,
the year crumb drops back to the months level clearing the month. -/
def handleCrumbClick (s : NavState) (lvl : String) : NavState :=
  if lvl = "years" then { level := NavLevel.years, year := none, month := none }
  else if lvl = "months" then { s with level := NavLevel.months, month := none }
  else s

/-- The datasets of the items render puts in the explorer list for a
given navigation state: year items at the years level (descending),
month items at the months level (insertion order), day items at the
dates level (ascending). -/
def renderedItems (gi : GroupedIndex) (s : NavState) : List ItemDataset :=
  match s.level with
  | NavLevel.years =>
    (renderYearItems gi).map (fun y => { year := some y })
  | NavLevel.months =>
    match s.year with
    | some y => (renderMonthItems gi y).map (fun m => { month := some m })
    | none => []
  | NavLevel.dates =>
    match s.year, s.month with
    | some y, some m =>
      (renderDayItems gi y m).map (fun d => { day := some d })
    | _, _ => []

/-- The data-level attributes of the clickable crumbs render produces:
none at the years level, the home crumb at the months level, home and
year crumbs at the dates level. -/
def crumbTargets (s : NavState) : List String :=
  match s.level with
  | NavLevel.years => []
  | NavLevel.months => ["years"]
  | NavLevel.dates => ["years", "months"]

/-- A user interaction on the explorer: a click landing on a rendered
list item, a click landing on a clickable crumb, or a click elsewhere
(closest finds no matching element and the handler returns at once). -/
inductive ExplorerEvent
  | listItem (ds : ItemDataset)
  | crumb (lvl : String)
  | outside

/-- The state after one interaction. -/
def stepExplorer (s : NavState) : ExplorerEvent → NavState
  | ExplorerEvent.listItem ds => handleListClick s ds
  | ExplorerEvent.crumb lvl => handleCrumbClick s lvl
  | ExplorerEvent.outside => s

/-- Which interactions can actually occur in a state: only elements the
render pass created can be hit by closest. -/
def ValidEvent (gi : GroupedIndex) (s : NavState) : ExplorerEvent → Prop
  | ExplorerEvent.listItem ds => ds ∈ renderedItems gi s
  | ExplorerEvent.crumb lvl => lvl ∈ crumbTargets s
  | ExplorerEvent.outside => True

/-- The navigation states reachable from initialization through clicks on
elements the explorer rendered. -/
inductive ReachableNav (gi : GroupedIndex) : NavState → Prop
  | init : ReachableNav gi initialNavState
  | step {s : NavState} {e : ExplorerEvent} (hs : ReachableNav gi s)
      (he : ValidEvent gi s e) : ReachableNav gi (stepExplorer s e)

/-- The navigation record never names a year or month missing from the
grouped index: at the months level the year is a key, at the dates level
the year is a key and the month is a key under it. -/
def NavInv (gi : GroupedIndex) (s : NavState) : Prop :=
  (s.level = NavLevel.months →
    ∃ y, s.year = some y ∧ y ∈ yearKeys gi) ∧
  (s.level = NavLevel.dates →
    ∃ y m, s.year = some y ∧ s.month = some m ∧
      y ∈ yearKeys gi ∧ m ∈ monthKeys gi y)

/-- The PATCH /notes/status/ request the toggle handler fires. -/
structure PatchCall where
  athenaId : String
  is_read : Bool
deriving DecidableEq

/-- Replace the first element satisfying p by its image under f, the
embedding of find followed by an in-place mutation of the found object. -/
def replaceFirst {α : Type} (p : α → Bool) (f : α → α) : List α → List α
  | [] => []
  | x :: t => if p x then f x :: t else x :: replaceFirst p f t

/-- The in-place flip of is_read on the first editorial of a bucket
matching the clicked id. -/
def flipFirstRead (docId : String) : List Editorial → List Editorial :=
  replaceFirst (fun e => e.id == docId)
    (fun e => { e with is_read := !e.is_read })

/-- The toggle-read branch of the content-area click handler.  Inputs:
the grouped index, currentState.year and currentState.month (possibly
null), the day attribute of the currently selected day item if one
exists, and the clicked document id.  It returns the grouped index after
the handler together with the PATCH request it fired, or the error the
property chain threw.  The source returns silently when no day is
selected, when the day bucket is missing, or when the id is not in the
bucket; a null or missing year or month makes the chained property
access throw instead. -/
def toggleReadHandler (gi : GroupedIndex) (yr : Option Nat)
    (mo : Option String) (selectedDay : Option Nat) (docId : String) :
    Except JsError (GroupedIndex × Option PatchCall) :=
  match selectedDay with
  | none => .ok (gi, none)
  | some day =>
    match yr with
    | none => .error .typeError
    | some y =>
      match findA y gi with
      | none => .error .typeError
      | some ym =>
        match mo with
        | none => .error .typeError
        | some m =>
          match findA m ym with
          | none => .error .typeError
          | some mm =>
            match findA day mm with
            | none => .ok (gi, none)
            | some bucket =>
              match bucket.find? (fun e => e.id == docId) with
              | none => .ok (gi, none)
              | some e =>
                .ok (adjustA y (adjustA m (adjustA day
                      (flipFirstRead docId))) gi,
                  some { athenaId := e.athena_id, is_read := !e.is_read })

/-- One exam record as returned by GET /exams, its date embedded as the
epoch milliseconds getTime reads off it. -/
structure Exam where
  id : String
  name : String
  dateMs : Int
deriving DecidableEq

/-- An exam extended with the derived daysRemaining field. -/
structure ProcessedExam where
  id : String
  name : String
  dateMs : Int
  daysRemaining : Int
deriving DecidableEq

/-- The pure transform inside fetchAndProcessExams (src/unnamed/part_000):
daysRemaining is the floor of (examDate - todayMidnight) / 86400000 and
only exams with daysRemaining at least zero are kept, in arrival order
(the source applies no sort). -/
def processExams (todayMs : Int) (exams : List Exam) : List ProcessedExam :=
  (exams.map (fun e =>
      { id := e.id, name := e.name, dateMs := e.dateMs
        daysRemaining := Int.fdiv (e.dateMs - todayMs) 86400000 })).filter
    (fun e => 0 ≤ e.daysRemaining)

/-- The daysRemaining derivation of displayExamTimers in src/script.js:
Math.ceil of (examDate - todayMidnight) / 86400000, embedded through
ceil x = negative floor of negative x. -/
def displayExamTimersDaysRemaining (todayMs dateMs : Int) : Int :=
  -(Int.fdiv (todayMs - dateMs) 86400000)

/-- The outcome of one HTTP fetch plus body decode: the fetch promise
rejects, or a response arrives with its ok flag and, when the body
decodes as the expected JSON shape, the decoded value. -/
inductive FetchOutcome (α : Type)
  | networkFailure
  | httpResponse (ok : Bool) (body : Option α)
deriving DecidableEq

/-- fetchData of initializeFileExplorer: awaits the editorial list fetch
and response.json() with no response.ok test and no try block, so a
rejected fetch propagates as a fetch failure, an undecodable body
propagates as a parse failure, and any response that decodes is accepted
as data whatever its HTTP status. -/
def fetchDataResult : FetchOutcome (List Editorial) →
    Except JsError (List Editorial)
  | FetchOutcome.networkFailure => .error .fetchFailed
  | FetchOutcome.httpResponse _ none => .error .parseFailed
  | FetchOutcome.httpResponse _ (some editorials) => .ok editorials

/-- What the explorer list shows after initialization. -/
inductive ExplorerListContent
  | loadingMessage
  | yearList (years : List Nat)
deriving DecidableEq

/-- The explorer list after initializeFileExplorer ran: when fetchData
rejects nothing catches the rejection, render never runs, and the list
keeps the Loading Editorials message; on success render replaces it with
the year items. -/
def initializeFileExplorerList (outcome : FetchOutcome (List Editorial)) :
    ExplorerListContent :=
  match fetchDataResult outcome with
  | .error _ => ExplorerListContent.loadingMessage
  | .ok editorials =>
    ExplorerListContent.yearList (renderYearItems (groupEditorials editorials))

/-- fetchAndProcessExams (src/unnamed/part_000): its try block rethrows on
a non-ok status and on a body that fails to decode, and the catch turns
every failure into a null result. -/
def fetchAndProcessExams (todayMs : Int) :
    FetchOutcome (List Exam) → Option (List ProcessedExam)
  | FetchOutcome.networkFailure => none
  | FetchOutcome.httpResponse false _ => none
  | FetchOutcome.httpResponse true none => none
  | FetchOutcome.httpResponse true (some exams) =>
    some (processExams todayMs exams)

/-- What the upcoming-exam panel shows. -/
inductive ExamPanel
  | noExams
  | blocks (upcoming : ProcessedExam) (others : List ProcessedExam)
deriving DecidableEq

/-- displayExamTimers (src/unnamed/part_000) on the processed exam data:
a null or empty list renders the No upcoming exams placeholder, a
nonempty list renders the head as the upcoming block and the tail as the
other blocks. -/
def displayExamTimersContent : Option (List ProcessedExam) → ExamPanel
  | none => ExamPanel.noExams
  | some [] => ExamPanel.noExams
  | some (e :: rest) => ExamPanel.blocks e rest

/-- toFixed with one digit on a nonnegative rational: the nearest tenth,
half rounded up, as the ECMAScript toFixed picks the larger candidate on
a tie. -/
def toFixed1 (q : ℚ) : ℚ := (round (q * 10) : ℚ) / 10

/-- The perDayMetric computation of renderHomeStats:
totalDaysAvailable > 0 gives (unreadCount / totalDaysAvailable).toFixed(1),
anything else gives the literal 0. -/
def perDayMetric (unreadCount : Nat) (totalDaysAvailable : Int) : ℚ :=
  if totalDaysAvailable > 0 then
    toFixed1 ((unreadCount : ℚ) / (totalDaysAvailable : ℚ))
  else 0

/-- The values renderHomeStats puts in the stat cards. -/
structure HomeStats where
  totalDaysAvailable : Int
  totalEditorials : Nat
  readCount : Nat
  unreadCount : Nat
  perDay : ℚ

/-- renderHomeStats: days to the prelims exam (0 when absent), the
editorial counts, and the per-day metric. -/
def renderHomeStats (futureExams : List ProcessedExam)
    (allEditorials : List Editorial) : HomeStats :=
  let totalDaysAvailable :=
    ((futureExams.find? (fun e => e.id == "pWySIJBI4yDC6v2YzLlD")).map
      (fun e => e.daysRemaining)).getD 0
  let totalEditorials := allEditorials.length
  let unreadCount := (allEditorials.filter (fun e => !e.is_read)).length
  { totalDaysAvailable := totalDaysAvailable
    totalEditorials := totalEditorials
    readCount := totalEditorials - unreadCount
    unreadCount := unreadCount
    perDay := perDayMetric unreadCount totalDaysAvailable }

/-- A sample unread editorial dated 5 January 2024. -/
def docA : Editorial :=
  { id := "ed-1", athena_id := "ath-1"
    date := { year := 2024, month := "January", day := 5 }
    original_filename := "first_note.md", is_read := false }

/-- A second sample editorial, read, dated the same day as docA. -/
def docB : Editorial :=
  { id := "ed-2", athena_id := "ath-2"
    date := { year := 2024, month := "January", day := 5 }
    original_filename := "second_note.md", is_read := true }

/-- A two-editorial fixture sharing one calendar day. -/
def sampleEditorials : List Editorial := [docA, docB]

/-- The grouped index built from the fixture. -/
def sampleIndex : GroupedIndex := groupEditorials sampleEditorials

/-- C1: building the grouped index places every document in exactly one
(year, month, day) bucket, the one matching the year, month and day of
its date field: the bucket at (y, m, d) is exactly the sublist of the
input documents dated (y, m, d), in input order; and when that day is
selected, renderEditorialsForDay renders precisely those documents in
that order, so two same-day documents share a bucket and are both
rendered with source order preserved. -/
theorem claim_c1 (editorials : List Editorial) (y : Nat) (m : String)
    (d : Nat) :
    getBucket (groupEditorials editorials) y m d =
      editorials.filter (hasDate y m d) ∧
    (∀ ym, findA y (groupEditorials editorials) = some ym →
      ∀ mm, findA m ym = some mm →
        renderEditorialsForDay (groupEditorials editorials) y m d =
          Except.ok
            ((editorials.filter (hasDate y m d)).map renderEditorialItem)) := by
  refine ⟨getBucket_group editorials y m d, ?_⟩
  intro ym hym mm hmm
  have hb := getBucket_group editorials y m d
  simp only [getBucket, hym, hmm, Option.getD_some] at hb
  cases hdm : findA d mm with
  | none =>
    rw [hdm] at hb
    simp only [Option.getD_none] at hb
    simp [renderEditorialsForDay, hym, hmm, hdm, ← hb]
  | some bucket =>
    rw [hdm] at hb
    simp only [Option.getD_some] at hb
    simp [renderEditorialsForDay, hym, hmm, hdm, hb]

/-- C1 witness: on the two same-day fixture documents the bucket at
(2024, January, 5) is the filter of the input and both rows are
rendered in input order. -/
theorem claim_c1_witness :
    getBucket (groupEditorials sampleEditorials) 2024 "January" 5 =
      sampleEditorials.filter (hasDate 2024 "January" 5) ∧
    renderEditorialsForDay (groupEditorials sampleEditorials) 2024 "January" 5 =
      Except.ok ((sampleEditorials.filter (hasDate 2024 "January" 5)).map
        renderEditorialItem) ∧
    sampleEditorials.filter (hasDate 2024 "January" 5) = [docA, docB] :=
  ⟨(claim_c1 sampleEditorials 2024 "January" 5).1,
   (claim_c1 sampleEditorials 2024 "January" 5).2 _ rfl _ rfl,
   by decide⟩

/-- C2 counterexample: the grouping loop of fetchData never clears
editorialsByDate, so running the derivation a second time over the same
input list does not reproduce the structure of a single run: with one
document the bucket doubles. -/
theorem claim_c2_counterexample :
    regroupEditorials (groupEditorials [docA]) [docA] ≠
      groupEditorials [docA] := by decide

/-- C2 amended: the grouping derivation is deterministic when rebuilt
from the empty index, but re-running the fetchData loop over an already
populated index appends the documents again: after a rerun each bucket
holds the prior contents followed by the same-dated documents once more,
so two applications differ from one on any input with a document. -/
theorem claim_c2_amended (gi : GroupedIndex) (editorials : List Editorial)
    (y : Nat) (m : String) (d : Nat) :
    getBucket (regroupEditorials gi editorials) y m d =
      getBucket gi y m d ++ editorials.filter (hasDate y m d) ∧
    getBucket (regroupEditorials (groupEditorials editorials) editorials)
        y m d =
      editorials.filter (hasDate y m d) ++
        editorials.filter (hasDate y m d) := by
  refine ⟨getBucket_regroup editorials gi y m d, ?_⟩
  rw [getBucket_regroup, getBucket_group]

/-- C8: in the rendered item lists the years are sorted descending and
duplicate free, the days within a month ascending and duplicate free,
both listing exactly the keys of the grouped index, while the months of
a year are exactly the month names of that year in first-seen order of
the input list, not independently sorted. -/
theorem claim_c8 (editorials : List Editorial) (y : Nat) (m : String) :
    List.Sorted (· ≥ ·) (renderYearItems (groupEditorials editorials)) ∧
    (renderYearItems (groupEditorials editorials)).Nodup ∧
    (∀ y', y' ∈ renderYearItems (groupEditorials editorials) ↔
      y' ∈ yearKeys (groupEditorials editorials)) ∧
    List.Sorted (· ≤ ·) (renderDayItems (groupEditorials editorials) y m) ∧
    (renderDayItems (groupEditorials editorials) y m).Nodup ∧
    (∀ d', d' ∈ renderDayItems (groupEditorials editorials) y m ↔
      d' ∈ dayKeys (groupEditorials editorials) y m) ∧
    renderMonthItems (groupEditorials editorials) y =
      firstSeenFold []
        ((editorials.filter (fun e => e.date.year == y)).map
          (fun e => e.date.month)) := by
  have hYear : yearKeys (groupEditorials editorials) =
      firstSeenFold [] (editorials.map (fun e => e.date.year)) := by
    simpa [yearKeys, keysOf] using yearKeys_regroup editorials []
  have hDay : dayKeys (groupEditorials editorials) y m =
      firstSeenFold []
        ((editorials.filter
            (fun e => e.date.year == y && e.date.month == m)).map
          (fun e => e.date.day)) := by
    simpa [dayKeys, keysOf, findA] using dayKeys_regroup editorials [] y m
  have hYearNodup : (yearKeys (groupEditorials editorials)).Nodup := by
    rw [hYear]; exact nodup_firstSeenFold _ [] (by simp)
  have hDayNodup : (dayKeys (groupEditorials editorials) y m).Nodup := by
    rw [hDay]; exact nodup_firstSeenFold _ [] (by simp)
  refine ⟨List.sorted_insertionSort _ _, ?_, ?_, List.sorted_insertionSort _ _,
    ?_, ?_, ?_⟩
  · exact ((List.perm_insertionSort _ _).nodup_iff).mpr hYearNodup
  · intro y'
    exact (List.perm_insertionSort _ _).mem_iff
  · exact ((List.perm_insertionSort _ _).nodup_iff).mpr hDayNodup
  · intro d'
    exact (List.perm_insertionSort _ _).mem_iff
  · simpa [renderMonthItems, monthKeys, keysOf, findA] using
      monthKeys_regroup editorials [] y

/-- C3: a click that lands on no explorer item leaves the navigation
state unchanged, and because render only creates items for keys that
exist in the grouped index, every navigation state reachable from
initialization references only a year that is a key of the grouped
index and a month that is a key under that year; selecting an absent
year or month is impossible, so it can only no-op. -/
theorem claim_c3 :
    (∀ (gi : GroupedIndex) (s : NavState),
      stepExplorer s ExplorerEvent.outside = s) ∧
    (∀ (gi : GroupedIndex) (s : NavState),
      ReachableNav gi s → NavInv gi s) := by
  refine ⟨fun _ _ => rfl, ?_⟩
  intro gi s hreach
  induction hreach with
  | init =>
    constructor <;> intro h <;> simp [initialNavState] at h
  | @step s' e hs he ih =>
    cases e with
    | outside => exact ih
    | crumb lvl =>
      cases hlev : s'.level with
      | years =>
        rw [ValidEvent, crumbTargets, hlev] at he
        simp at he
      | months =>
        rw [ValidEvent, crumbTargets, hlev] at he
        simp at he
        subst he
        have hstep : stepExplorer s' (ExplorerEvent.crumb "years") =
            { level := NavLevel.years, year := none, month := none } := by
          simp [stepExplorer, handleCrumbClick]
        rw [hstep]
        constructor <;> intro h <;> simp at h
      | dates =>
        rw [ValidEvent, crumbTargets, hlev] at he
        simp at he
        obtain ⟨y, m, hyy, hmm, hyk, hmk⟩ := ih.2 hlev
        rcases he with he | he
        · subst he
          have hstep : stepExplorer s' (ExplorerEvent.crumb "years") =
              { level := NavLevel.years, year := none, month := none } := by
            simp [stepExplorer, handleCrumbClick]
          rw [hstep]
          constructor <;> intro h <;> simp at h
        · subst he
          have hstep : stepExplorer s' (ExplorerEvent.crumb "months") =
              { s' with level := NavLevel.months, month := none } := by
            simp [stepExplorer, handleCrumbClick]
          rw [hstep]
          refine ⟨fun _ => ⟨y, by simpa using hyy, hyk⟩, fun h => by simp at h⟩
    | listItem ds =>
      cases hlev : s'.level with
      | years =>
        rw [ValidEvent, renderedItems, hlev] at he
        simp at he
        obtain ⟨y, hy, rfl⟩ := he
        have hyk : y ∈ yearKeys gi := by
          have hperm := List.perm_insertionSort (α := Nat) (· ≥ ·) (yearKeys gi)
          exact hperm.mem_iff.mp (by
            simpa [renderYearItems, sortYearsDesc] using hy)
        have hstep : stepExplorer s'
            (ExplorerEvent.listItem { year := some y }) =
            { s' with level := NavLevel.months, year := some y } := by
          simp [stepExplorer, handleListClick]
        rw [hstep]
        refine ⟨fun _ => ⟨y, by simp, hyk⟩, fun h => by simp at h⟩
      | months =>
        cases hyr : s'.year with
        | none =>
          rw [ValidEvent, renderedItems, hlev, hyr] at he
          simp at he
        | some y =>
          rw [ValidEvent, renderedItems, hlev, hyr] at he
          simp at he
          obtain ⟨m, hm, rfl⟩ := he
          obtain ⟨y', hy', hyk'⟩ := ih.1 hlev
          rw [hyr] at hy'
          have hyy : y' = y := by simpa using hy'.symm
          subst hyy
          have hmk : m ∈ monthKeys gi y' := by
            simpa [renderMonthItems] using hm
          have hstep : stepExplorer s'
              (ExplorerEvent.listItem { month := some m }) =
              { s' with level := NavLevel.dates, month := some m } := by
            simp [stepExplorer, handleListClick]
          rw [hstep]
          refine ⟨fun h => by simp at h,
            fun _ => ⟨y', m, by simpa using hyr, by simp, hyk', hmk⟩⟩
      | dates =>
        cases hyr : s'.year with
        | none =>
          rw [ValidEvent, renderedItems, hlev, hyr] at he
          simp at he
        | some y =>
          cases hmo : s'.month with
          | none =>
            rw [ValidEvent, renderedItems, hlev, hyr, hmo] at he
            simp at he
          | some m =>
            rw [ValidEvent, renderedItems, hlev, hyr, hmo] at he
            simp at he
            obtain ⟨d, hd, rfl⟩ := he
            have hstep : stepExplorer s'
                (ExplorerEvent.listItem { day := some d }) = s' := by
              simp [stepExplorer, handleListClick]
            rw [hstep]
            exact ih

/-- C3 witness: from initialization, clicking the rendered 2024 year item
of the sample index reaches a state satisfying the key invariant. -/
theorem claim_c3_witness :
    NavInv sampleIndex
      (stepExplorer initialNavState
        (ExplorerEvent.listItem { year := some 2024 })) :=
  claim_c3.2 sampleIndex _
    (ReachableNav.step ReachableNav.init (by
      show ({ year := some 2024 } : ItemDataset) ∈
        renderedItems sampleIndex initialNavState
      decide))

/-- C4 counterexample: with 2024 and January present in the sample
grouped index, selecting January from the months level of 2024 and then
going back one level through the year crumb lands in the months state of
2024, not in the years state the claim announces. -/
theorem claim_c4_counterexample :
    2024 ∈ yearKeys sampleIndex ∧
    "January" ∈ monthKeys sampleIndex 2024 ∧
    handleCrumbClick
        (handleListClick
          { level := NavLevel.months, year := some 2024, month := none }
          { month := some "January" }) "months" ≠
      initialNavState := by decide

/-- C4 amended: back after selectMonth(m) from Months(y) restores exactly
Months(y) - the level drops to months with the month cleared and the
year kept - matching the transition table of the spec rather than the
Years state. -/
theorem claim_c4_amended (gi : GroupedIndex) (y : Nat) (m : String)
    (hy : y ∈ yearKeys gi) (hm : m ∈ monthKeys gi y) :
    handleCrumbClick
        (handleListClick
          { level := NavLevel.months, year := some y, month := none }
          { month := some m }) "months" =
      { level := NavLevel.months, year := some y, month := none } := by
  simp [handleListClick, handleCrumbClick]

/-- C4 witness: the amended round trip evaluated on the sample index at
year 2024 and month January. -/
theorem claim_c4_witness :
    handleCrumbClick
        (handleListClick
          { level := NavLevel.months, year := some 2024, month := none }
          { month := some "January" }) "months" =
      { level := NavLevel.months, year := some 2024, month := none } :=
  claim_c4_amended sampleIndex 2024 "January" (by decide) (by decide)

/-- C5: perDayMetric is 0 whenever totalDaysAvailable is zero or
negative, and otherwise is unreadCount divided by totalDaysAvailable
rounded to one decimal (7 unread over 3 days gives 2.3); renderHomeStats
feeds it the unread count of the editorial list and the daysRemaining of
the prelims exam. -/
theorem claim_c5 :
    (∀ (u : Nat) (d : Int), d ≤ 0 → perDayMetric u d = 0) ∧
    (∀ (u : Nat) (d : Int), 0 < d →
      perDayMetric u d = toFixed1 ((u : ℚ) / (d : ℚ))) ∧
    perDayMetric 7 3 = 23 / 10 ∧
    (∀ (futureExams : List ProcessedExam) (allEditorials : List Editorial),
      (renderHomeStats futureExams allEditorials).perDay =
        perDayMetric (allEditorials.filter (fun e => !e.is_read)).length
          (((futureExams.find? (fun e => e.id == "pWySIJBI4yDC6v2YzLlD")).map
            (fun e => e.daysRemaining)).getD 0)) := by
  refine ⟨?_, ?_, ?_, fun _ _ => rfl⟩
  · intro u d hd
    simp [perDayMetric, not_lt.mpr hd]
  · intro u d hd
    simp [perDayMetric, hd]
  · norm_num [perDayMetric, toFixed1, round_eq]

/-- C5 witness: a negative denominator yields 0 and the documented
example 7 over 3 yields the rounded value. -/
theorem claim_c5_witness :
    perDayMetric 5 (-2) = 0 ∧
    perDayMetric 7 3 = toFixed1 ((7 : ℚ) / (3 : ℚ)) :=
  ⟨claim_c5.1 5 (-2) (by norm_num), claim_c5.2.1 7 3 (by norm_num)⟩

/-- C6 counterexample: with the sample day bucket selected and an id
absent from it, the toggle handler does not fail with any error at all:
it returns successfully with the grouped index unchanged and no PATCH
request, so no NotFoundError is raised. -/
theorem claim_c6_counterexample :
    toggleReadHandler sampleIndex (some 2024) (some "January") (some 5)
        "missing-id" =
      Except.ok (sampleIndex, none) := by rfl

/-- C6 amended: when no document with the clicked id exists in the
currently selected day bucket the handler silently returns - grouped
index unchanged, no PATCH fired, no NotFoundError raised; when such a
document exists the handler flips the is_read flag of the first match in
that bucket and fires the PATCH with the new status. -/
theorem claim_c6_amended (gi : GroupedIndex) (y : Nat) (m : String)
    (day : Nat) (docId : String)
    (ym : List (String × List (Nat × List Editorial)))
    (mm : List (Nat × List Editorial)) (bucket : List Editorial)
    (hy : findA y gi = some ym) (hm : findA m ym = some mm)
    (hd : findA day mm = some bucket) :
    (bucket.find? (fun e => e.id == docId) = none →
      toggleReadHandler gi (some y) (some m) (some day) docId =
        Except.ok (gi, none)) ∧
    (∀ e, bucket.find? (fun e => e.id == docId) = some e →
      toggleReadHandler gi (some y) (some m) (some day) docId =
        Except.ok
          (adjustA y (adjustA m (adjustA day (flipFirstRead docId))) gi,
            some { athenaId := e.athena_id, is_read := !e.is_read }) ∧
      getBucket
          (adjustA y (adjustA m (adjustA day (flipFirstRead docId))) gi)
          y m day =
        flipFirstRead docId bucket) := by
  constructor
  · intro hfind
    simp [toggleReadHandler, hy, hm, hd, hfind]
  · intro e hfind
    refine ⟨by simp [toggleReadHandler, hy, hm, hd, hfind], ?_⟩
    simp [getBucket, findA_adjustA_self, hy, hm, hd]

/-- C6 witness: toggling the present id ed-1 in the sample bucket flips
its is_read to true, fires the PATCH for ath-1 with the new status, and
rewrites only that bucket. -/
theorem claim_c6_witness :
    toggleReadHandler sampleIndex (some 2024) (some "January") (some 5)
        "ed-1" =
      Except.ok
        (adjustA 2024 (adjustA "January" (adjustA 5 (flipFirstRead "ed-1")))
          sampleIndex,
          some { athenaId := "ath-1", is_read := true }) ∧
    getBucket
        (adjustA 2024 (adjustA "January" (adjustA 5 (flipFirstRead "ed-1")))
          sampleIndex)
        2024 "January" 5 =
      flipFirstRead "ed-1" [docA, docB] :=
  (claim_c6_amended sampleIndex 2024 "January" 5 "ed-1" _ _ _
    rfl rfl rfl).2 docA rfl

/-- C10: the toggle handler is a strict no-op on each silent-return path:
with no day selected, or a selected day whose bucket is missing under a
present year and month, or a bucket not containing the clicked id, it
returns with the grouped index unchanged and fires no PATCH request. -/
theorem claim_c10 :
    (∀ (gi : GroupedIndex) (yr : Option Nat) (mo : Option String)
        (docId : String),
      toggleReadHandler gi yr mo none docId = Except.ok (gi, none)) ∧
    (∀ (gi : GroupedIndex) (y : Nat) (m : String) (day : Nat)
        (docId : String) (ym : List (String × List (Nat × List Editorial)))
        (mm : List (Nat × List Editorial)),
      findA y gi = some ym → findA m ym = some mm →
      findA day mm = none →
      toggleReadHandler gi (some y) (some m) (some day) docId =
        Except.ok (gi, none)) ∧
    (∀ (gi : GroupedIndex) (y : Nat) (m : String) (day : Nat)
        (docId : String) (ym : List (String × List (Nat × List Editorial)))
        (mm : List (Nat × List Editorial)) (bucket : List Editorial),
      findA y gi = some ym → findA m ym = some mm →
      findA day mm = some bucket →
      bucket.find? (fun e => e.id == docId) = none →
      toggleReadHandler gi (some y) (some m) (some day) docId =
        Except.ok (gi, none)) := by
  refine ⟨fun _ _ _ _ => rfl, ?_, ?_⟩
  · intro gi y m day docId ym mm hy hm hd
    simp [toggleReadHandler, hy, hm, hd]
  · intro gi y m day docId ym mm bucket hy hm hd hfind
    simp [toggleReadHandler, hy, hm, hd, hfind]

/-- C10 witness: an id absent from the sample bucket leaves the index
unchanged and fires nothing. -/
theorem claim_c10_witness :
    toggleReadHandler sampleIndex (some 2024) (some "January") (some 5)
        "ghost-id" =
      Except.ok (sampleIndex, none) :=
  claim_c10.2.2 sampleIndex 2024 "January" 5 "ghost-id" _ _ _
    rfl rfl rfl rfl

/-- C7 counterexample: a non-success HTTP response whose body still
decodes is accepted as data by the editorial load (no FetchError: the
source never reads response.ok); a network failure of the editorial load
is caught nowhere, so the explorer panel keeps its loading message
instead of an inline error; and a failing exam load renders the plain
No upcoming exams placeholder, not an error message. -/
theorem claim_c7_counterexample :
    fetchDataResult (FetchOutcome.httpResponse false (some [])) =
      Except.ok [] ∧
    initializeFileExplorerList FetchOutcome.networkFailure =
      ExplorerListContent.loadingMessage ∧
    displayExamTimersContent
        (fetchAndProcessExams 0 FetchOutcome.networkFailure) =
      ExamPanel.noExams :=
  ⟨rfl, rfl, rfl⟩

/-- C7 amended: the editorial load fails on a rejected fetch and on an
undecodable payload, but performs no HTTP status check, so any response
that decodes is processed as data whatever its status; no error from the
editorial load is caught anywhere - a failing load leaves the explorer
list stuck on the loading message rather than an inline error - while
the exam load catches its own failures, returns null, and the timers
panel then shows the No upcoming exams placeholder. -/
theorem claim_c7_amended :
    fetchDataResult FetchOutcome.networkFailure =
      Except.error JsError.fetchFailed ∧
    (∀ ok : Bool,
      fetchDataResult (FetchOutcome.httpResponse ok none) =
        Except.error JsError.parseFailed) ∧
    (∀ (ok : Bool) (editorials : List Editorial),
      fetchDataResult (FetchOutcome.httpResponse ok (some editorials)) =
        Except.ok editorials) ∧
    (∀ (outcome : FetchOutcome (List Editorial)) (err : JsError),
      fetchDataResult outcome = Except.error err →
      initializeFileExplorerList outcome =
        ExplorerListContent.loadingMessage) ∧
    (∀ todayMs : Int,
      displayExamTimersContent
          (fetchAndProcessExams todayMs FetchOutcome.networkFailure) =
        ExamPanel.noExams ∧
      (∀ exams : Option (List Exam),
        displayExamTimersContent
            (fetchAndProcessExams todayMs
              (FetchOutcome.httpResponse false exams)) =
          ExamPanel.noExams)) := by
  refine ⟨rfl, fun _ => rfl, fun _ _ => rfl, ?_, fun _ => ⟨rfl, fun _ => rfl⟩⟩
  intro outcome err herr
  simp [initializeFileExplorerList, herr]

/-- C7 witness: the uncaught editorial network failure leaves the
explorer list on its loading message. -/
theorem claim_c7_witness :
    initializeFileExplorerList FetchOutcome.networkFailure =
      ExplorerListContent.loadingMessage :=
  claim_c7_amended.2.2.2.1 FetchOutcome.networkFailure JsError.fetchFailed rfl

/-- A sample exam dated later (epoch milliseconds 200000000). -/
def examLate : Exam := { id := "ex-late", name := "Late Exam"
                         dateMs := 200000000 }

/-- A sample exam dated earlier than examLate. -/
def examEarly : Exam := { id := "ex-early", name := "Early Exam"
                          dateMs := 100000000 }

/-- C9 counterexample: fetchAndProcessExams applies no sort, so an input
arriving in descending date order is kept in that order and the head of
the result is not the earliest exam; moreover the script.js variant
derives daysRemaining with ceil, which differs from the claimed floor
one millisecond after midnight. -/
theorem claim_c9_counterexample :
    (processExams 0 [examLate, examEarly]).map (fun e => e.dateMs) =
      [200000000, 100000000] ∧
    ¬ List.Sorted (· ≤ ·)
      ((processExams 0 [examLate, examEarly]).map (fun e => e.dateMs)) ∧
    displayExamTimersDaysRemaining 0 1 ≠ Int.fdiv (1 - 0) 86400000 := by
  decide

/-- C9 amended: the client derives daysRemaining as the floor of
(examDate - today) / 86400000 and keeps exactly the exams with
daysRemaining at least 0, preserving arrival order (the output dates
form a sublist of the input dates and are in ascending order exactly
when the API already delivered ascending dates, making the head the
earliest only then); the src/script.js variant instead uses ceil: its
daysRemaining is the least integer k with examDate - today at most
86400000 k. -/
theorem claim_c9_amended (todayMs : Int) (exams : List Exam) :
    (∀ e ∈ processExams todayMs exams,
      e.daysRemaining = Int.fdiv (e.dateMs - todayMs) 86400000 ∧
        0 ≤ e.daysRemaining) ∧
    ((processExams todayMs exams).map (fun e => e.dateMs)).Sublist
      (exams.map (fun e => e.dateMs)) ∧
    (List.Sorted (· ≤ ·) (exams.map (fun e => e.dateMs)) →
      List.Sorted (· ≤ ·)
        ((processExams todayMs exams).map (fun e => e.dateMs))) ∧
    (∀ dateMs k : Int,
      displayExamTimersDaysRemaining todayMs dateMs ≤ k ↔
        dateMs - todayMs ≤ 86400000 * k) := by
  have hsub : ((processExams todayMs exams).map (fun e => e.dateMs)).Sublist
      (exams.map (fun e => e.dateMs)) := by
    have h1 := List.filter_sublist
      (l := exams.map (fun e =>
        ({ id := e.id, name := e.name, dateMs := e.dateMs
           daysRemaining :=
             Int.fdiv (e.dateMs - todayMs) 86400000 } : ProcessedExam)))
      (p := fun e => decide (0 ≤ e.daysRemaining))
    have h2 := h1.map (fun e : ProcessedExam => e.dateMs)
    simpa [processExams, List.map_map, Function.comp] using h2
  refine ⟨?_, hsub, ?_, ?_⟩
  · intro e he
    simp only [processExams, List.mem_filter, List.mem_map] at he
    obtain ⟨⟨e0, _, rfl⟩, hge⟩ := he
    exact ⟨rfl, by simpa using hge⟩
  · intro hsorted
    exact List.Pairwise.sublist hsub hsorted
  · intro dateMs k
    rw [displayExamTimersDaysRemaining,
      Int.fdiv_eq_ediv _ (by norm_num)]
    omega

/-- C9 witness: on an already ascending two-exam input the output dates
stay ascending, and the exams of the fixture are all retained with their
floor-derived day counts. -/
theorem claim_c9_witness :
    List.Sorted (· ≤ ·)
      ((processExams 0 [examEarly, examLate]).map (fun e => e.dateMs)) ∧
    (({ id := "ex-early", name := "Early Exam", dateMs := 100000000
        daysRemaining := 1 } : ProcessedExam).daysRemaining =
      Int.fdiv ((100000000 : Int) - 0) 86400000 ∧
      (0 : Int) ≤ 1) :=
  ⟨(claim_c9_amended 0 [examEarly, examLate]).2.2.1 (by decide),
   (claim_c9_amended 0 [examEarly, examLate]).1
     { id := "ex-early", name := "Early Exam", dateMs := 100000000
       daysRemaining := 1 } (by decide)⟩
